import Mathlib

/-!
Shallow embedding of `_addnl.py` (directory-scoped batch text-file
preprocessor).  The script scans the immediate entries of a directory,
selects regular files whose lowercased name ends with `.txt` or `.md`,
reads each as UTF-8 text in universal-newlines mode (so every `\r\n` and
lone `\r` of the body is translated to `\n` on read), prepends two empty
lines joined by the chosen line terminator, and writes the result back
with write-side newline translation suppressed.  Undecodable files are
skipped and logged; any other per-file error is caught and logged — a
read-phase error leaves the file unchanged, while an error after the
truncating re-open for write leaves only the part written so far; a
counter of processed files is kept.
-/

/-- Kind of a directory entry, as distinguished by `os.path.isfile`:
`regular` means `isfile` returns true; `directory` is a subdirectory;
`other` is any remaining entry kind. -/
inductive FileKind where
  | regular
  | directory
  | other
deriving DecidableEq

/-- Byte content of a file, as seen through the UTF-8 decoder used by the
script: `text s` is content that decodes to the string `s` (before any
newline translation); `binary bs` is content whose bytes fail UTF-8
decoding (raising UnicodeDecodeError). -/
inductive Content where
  | text (s : String)
  | binary (bytes : List Nat)
deriving DecidableEq

/-- A directory entry presented to the run: its name, its kind, its
content, and whether touching it raises a non-decoding OS error
(permissions, I/O failure, removal mid-run) with that error's message.
When `osError` is set, `written` says where the error strikes: `none`
means during the read phase, before anything is written, so the file is
untouched; `some k` means during the write phase — `open(…, 'w')` has
already truncated the file and exactly `k` characters of the new content
were written before the failure. -/
structure Entry where
  name : String
  kind : FileKind
  content : Content
  osError : Bool
  errMsg : String
  written : Option Nat
deriving DecidableEq

/-- Per-file outcome, mirroring the four console messages of the script
plus the two silent `continue` skips. -/
inductive Outcome where
  | notFile
  | notMatched
  | processed
  | skippedNonText
  | errored (msg : String)
deriving DecidableEq

/-- The allow-list `text_extensions = ['.txt', '.md']`. -/
def text_extensions : List String := [".txt", ".md"]

/-- `line1 = ""` from the script. -/
def line1 : String := ""

/-- `line2 = ""` from the script. -/
def line2 : String := ""

/-- Terminator resolution at the top of `insert_lines_to_files`:
`'lf'` gives `"\n"`, `'crlf'` gives `"\r\n"`, anything else falls through
to `os.linesep` (passed in here as `osLinesep`). -/
def resolveNl (osLinesep : String) (newline_type : String) : String :=
  if newline_type = "lf" then "\n"
  else if newline_type = "crlf" then "\r\n"
  else osLinesep

/-- Python `str.lower()`, character by character. -/
def pyLower (s : String) : String := ⟨s.data.map Char.toLower⟩

/-- Python `s.endswith(p)`: the character sequence of `p` is a suffix of
that of `s`. -/
def pyEndsWith (s p : String) : Bool := p.data.isSuffixOf s.data

/-- The selection test `any(filename.lower().endswith(ext) for ext in
text_extensions)`. -/
def hasAllowedExt (filename : String) : Bool :=
  text_extensions.any (fun ext => pyEndsWith (pyLower filename) ext)

/-- Universal-newlines translation applied by `open(filepath, 'r',
encoding='utf-8')` (the `newline` argument defaults to `None`): every
`\r\n` pair and every lone `\r` becomes `\n`. -/
def univNlChars : List Char → List Char
  | [] => []
  | '\r' :: '\n' :: rest => '\n' :: univNlChars rest
  | '\r' :: rest => '\n' :: univNlChars rest
  | c :: rest => c :: univNlChars rest

/-- Universal-newlines translation on strings: what `f.read()` returns
for a file whose decoded character sequence is `s`. -/
def pyUnivNl (s : String) : String := ⟨univNlChars s.data⟩

/-- The rewritten content `f"{line1}{nl}{line2}{nl}{original_content}"`,
where `original_content` is the string returned by the read. -/
def newContent (nl : String) (original_content : String) : String :=
  line1 ++ nl ++ line2 ++ nl ++ original_content

/-- One iteration of the `for filename in os.listdir(directory)` loop:
skip non-files, skip names without an allow-listed extension, catch OS
errors, skip undecodable content, otherwise rewrite the file with the
header prepended to the universal-newlines translation of its content.
A read-phase OS error (`written = none`) leaves the file unchanged; a
write-phase OS error (`written = some k`) leaves the first `k` characters
of the new content, since the `'w'` open truncates before writing.
Returns the entry as left on disk and the outcome. -/
def processEntry (nl : String) (e : Entry) : Entry × Outcome :=
  if e.kind ≠ FileKind.regular then (e, Outcome.notFile)
  else if hasAllowedExt e.name = false then (e, Outcome.notMatched)
  else if e.osError = true ∧ e.written = none then (e, Outcome.errored e.errMsg)
  else
    match e.content with
    | Content.binary _ => (e, Outcome.skippedNonText)
    | Content.text s =>
        if e.osError = true then
          ({ e with content :=
              Content.text ⟨(newContent nl (pyUnivNl s)).data.take (e.written.getD 0)⟩ },
           Outcome.errored e.errMsg)
        else
          ({ e with content := Content.text (newContent nl (pyUnivNl s)) },
           Outcome.processed)

/-- The whole loop over the listing: resulting entries, the
`processed_files` counter, and the log of per-file console outcomes. -/
def runEntries (nl : String) : List Entry → List Entry × Nat × List (String × Outcome)
  | [] => ([], 0, [])
  | e :: rest =>
      let r := processEntry nl e
      let rec_rest := runEntries nl rest
      (r.1 :: rec_rest.1,
       (if r.2 = Outcome.processed then 1 else 0) + rec_rest.2.1,
       (e.name, r.2) :: rec_rest.2.2)

/-- `insert_lines_to_files(directory, newline_type)`: resolve the
terminator once, then process every immediate entry of the listing. -/
def insert_lines_to_files (osLinesep : String) (listing : List Entry)
    (newline_type : String) : List Entry × Nat × List (String × Outcome) :=
  runEntries (resolveNl osLinesep newline_type) listing

/-- The `--newline` choices of `parse_arguments`. -/
def newline_choices : List String := ["lf", "crlf", "system"]

/-- Argparse validation of the `--newline` flag: a value outside the
three choices is rejected (argparse errors out), a listed value is
accepted unchanged. -/
def parseNewlineArg (s : String) : Option String :=
  if s ∈ newline_choices then some s else none

-- Basic structural lemmas about the run and the newline translation.

theorem runEntries_fst (nl : String) (l : List Entry) :
    (runEntries nl l).1 = l.map (fun e => (processEntry nl e).1) := by
  induction l with
  | nil => rfl
  | cons e rest ih => simp [runEntries, ih]

theorem runEntries_count (nl : String) (l : List Entry) :
    (runEntries nl l).2.1
      = l.countP (fun e => (processEntry nl e).2 = Outcome.processed) := by
  induction l with
  | nil => rfl
  | cons e rest ih =>
      simp only [runEntries, List.countP_cons, ih]
      by_cases h : (processEntry nl e).2 = Outcome.processed
      · simp [h, Nat.add_comm]
      · simp [h]

theorem runEntries_log (nl : String) (l : List Entry) :
    (runEntries nl l).2.2 = l.map (fun e => (e.name, (processEntry nl e).2)) := by
  induction l with
  | nil => rfl
  | cons e rest ih => simp [runEntries, ih]

theorem newContent_eq (nl s : String) : newContent nl s = nl ++ nl ++ s := by
  simp [newContent, line1, line2]

theorem hasAllowedExt_iff (n : String) :
    hasAllowedExt n = true
      ↔ (pyEndsWith (pyLower n) ".txt" = true ∨ pyEndsWith (pyLower n) ".md" = true) := by
  simp [hasAllowedExt, text_extensions]

theorem univNlChars_no_cr (l : List Char) : '\r' ∉ univNlChars l := by
  induction l using univNlChars.induct
  all_goals simp_all [univNlChars, ne_comm]

theorem univNlChars_of_no_cr (l : List Char) (h : '\r' ∉ l) : univNlChars l = l := by
  induction l using univNlChars.induct
  all_goals simp_all [univNlChars, ne_comm]

theorem pyUnivNl_lf_header (u : String) (h : '\r' ∉ u.data) :
    pyUnivNl ("\n" ++ "\n" ++ u) = "\n" ++ "\n" ++ u := by
  have h2 : ("\n" ++ "\n" ++ u : String).data = '\n' :: '\n' :: u.data := rfl
  have h3 : univNlChars ('\n' :: '\n' :: u.data) = '\n' :: '\n' :: univNlChars u.data := by
    simp [univNlChars]
  rw [pyUnivNl, h2, h3, univNlChars_of_no_cr u.data h]
  rfl

theorem processEntry_text (nl : String) (e : Entry) (s : String)
    (hk : e.kind = FileKind.regular) (hx : hasAllowedExt e.name = true)
    (hc : e.content = Content.text s) (he : e.osError = false) :
    processEntry nl e
      = ({ e with content := Content.text (newContent nl (pyUnivNl s)) },
         Outcome.processed) := by
  simp [processEntry, hk, hx, hc, he]

theorem processEntry_binary (nl : String) (e : Entry) (b : List Nat)
    (hk : e.kind = FileKind.regular) (hx : hasAllowedExt e.name = true)
    (hc : e.content = Content.binary b) (he : e.osError = false) :
    processEntry nl e = (e, Outcome.skippedNonText) := by
  simp [processEntry, hk, hx, hc, he]

theorem processEntry_readFail (nl : String) (e : Entry)
    (hk : e.kind = FileKind.regular) (hx : hasAllowedExt e.name = true)
    (he : e.osError = true) (hw : e.written = none) :
    processEntry nl e = (e, Outcome.errored e.errMsg) := by
  simp [processEntry, hk, hx, he, hw]

theorem processEntry_writeFail (nl : String) (e : Entry) (s : String) (k : Nat)
    (hk : e.kind = FileKind.regular) (hx : hasAllowedExt e.name = true)
    (hc : e.content = Content.text s) (he : e.osError = true)
    (hw : e.written = some k) :
    processEntry nl e
      = ({ e with content :=
            Content.text ⟨(newContent nl (pyUnivNl s)).data.take k⟩ },
         Outcome.errored e.errMsg) := by
  simp [processEntry, hk, hx, hc, he, hw]

theorem processEntry_not_selected (nl : String) (e : Entry)
    (h : e.kind ≠ FileKind.regular ∨ hasAllowedExt e.name = false) :
    (processEntry nl e).1 = e ∧ (processEntry nl e).2 ≠ Outcome.processed := by
  rcases h with h | h
  · simp [processEntry, h]
  · by_cases hk : e.kind = FileKind.regular
    · simp [processEntry, hk, h]
    · simp [processEntry, hk]

/-- Claim C1: a regular file with an allow-listed extension (matched
case-insensitively) whose decoded content is `"hello"` is rewritten under
mode `lf` to exactly `"\n\nhello"`, and under mode `crlf` to exactly
`"\r\n\r\nhello"` (the body `"hello"` carries no carriage return, so the
read-side translation leaves it unchanged). -/
theorem C1_hello_header (os : String) (e : Entry)
    (hk : e.kind = FileKind.regular) (hx : hasAllowedExt e.name = true)
    (hc : e.content = Content.text "hello") (he : e.osError = false) :
    (insert_lines_to_files os [e] "lf").1
        = [{ e with content := Content.text "\n\nhello" }]
  ∧ (insert_lines_to_files os [e] "crlf").1
        = [{ e with content := Content.text "\r\n\r\nhello" }] := by
  have hlf : resolveNl os "lf" = "\n" := by simp [resolveNl]
  have hcrlf : resolveNl os "crlf" = "\r\n" := by simp [resolveNl]
  have hpu : pyUnivNl "hello" = "hello" := by decide
  have h1 : ("\n" : String) ++ "\n" ++ "hello" = "\n\nhello" := by decide
  have h2 : ("\r\n" : String) ++ "\r\n" ++ "hello" = "\r\n\r\nhello" := by decide
  refine ⟨?_, ?_⟩
  · rw [insert_lines_to_files, hlf, runEntries_fst,
      List.map_cons, List.map_nil, processEntry_text "\n" e "hello" hk hx hc he,
      newContent_eq, hpu, h1]
  · rw [insert_lines_to_files, hcrlf, runEntries_fst,
      List.map_cons, List.map_nil, processEntry_text "\r\n" e "hello" hk hx hc he,
      newContent_eq, hpu, h2]

/-- Witness for C1 at the concrete file `NOTES.TXT` containing `hello`. -/
theorem C1_hello_header_witness :
    ((⟨"NOTES.TXT", FileKind.regular, Content.text "hello", false, "", none⟩ : Entry).kind
        = FileKind.regular
      ∧ hasAllowedExt "NOTES.TXT" = true
      ∧ (⟨"NOTES.TXT", FileKind.regular, Content.text "hello", false, "", none⟩
          : Entry).content = Content.text "hello"
      ∧ (⟨"NOTES.TXT", FileKind.regular, Content.text "hello", false, "", none⟩
          : Entry).osError = false)
  ∧ ((insert_lines_to_files "\n"
        [⟨"NOTES.TXT", FileKind.regular, Content.text "hello", false, "", none⟩] "lf").1
        = [⟨"NOTES.TXT", FileKind.regular, Content.text "\n\nhello", false, "", none⟩]
    ∧ (insert_lines_to_files "\n"
        [⟨"NOTES.TXT", FileKind.regular, Content.text "hello", false, "", none⟩] "crlf").1
        = [⟨"NOTES.TXT", FileKind.regular, Content.text "\r\n\r\nhello", false, "", none⟩]) :=
  ⟨⟨rfl, by decide, rfl, rfl⟩,
   C1_hello_header "\n"
     ⟨"NOTES.TXT", FileKind.regular, Content.text "hello", false, "", none⟩
     rfl (by decide) rfl rfl⟩

/-- Counterexample to C2 as stated: for the file `a.txt` containing
`"x\r\ny"` under mode `lf`, the program writes `"\n\nx\ny"` — the body's
`\r\n` is translated to `\n` by the universal-newlines read — so the
suffix after the header is not character-for-character the original
content. -/
theorem C2_format_contract_cex :
    (processEntry "\n"
        ⟨"a.txt", FileKind.regular, Content.text "x\r\ny", false, "", none⟩).1.content
        = Content.text "\n\nx\ny"
  ∧ (processEntry "\n"
        ⟨"a.txt", FileKind.regular, Content.text "x\r\ny", false, "", none⟩).1.content
        ≠ Content.text ("\n" ++ "\n" ++ "x\r\ny") := by
  decide

/-- Claim C2 (amended): every successfully processed file is rewritten to
exactly two terminators followed by the universal-newlines translation of
the original content (each `\r\n` or lone `\r` of the body becomes `\n`
on read; the write applies no further translation, and the decoded text
is otherwise unchanged, so encoding and byte-order-mark status are
preserved), and the file is counted as processed. -/
theorem C2_format_contract (nl : String) (e : Entry) (s : String)
    (hk : e.kind = FileKind.regular) (hx : hasAllowedExt e.name = true)
    (hc : e.content = Content.text s) (he : e.osError = false) :
    processEntry nl e
      = ({ e with content := Content.text (nl ++ nl ++ pyUnivNl s) },
         Outcome.processed) := by
  rw [processEntry_text nl e s hk hx hc he, newContent_eq]

/-- Witness for C2 (amended) at a concrete file `a.md` with CR-bearing
content `x\r\ny` and terminator `"\r\n"`. -/
theorem C2_format_contract_witness :
    ((⟨"a.md", FileKind.regular, Content.text "x\r\ny", false, "", none⟩ : Entry).kind
        = FileKind.regular
      ∧ hasAllowedExt "a.md" = true
      ∧ (⟨"a.md", FileKind.regular, Content.text "x\r\ny", false, "", none⟩ : Entry).content
          = Content.text "x\r\ny"
      ∧ (⟨"a.md", FileKind.regular, Content.text "x\r\ny", false, "", none⟩ : Entry).osError
          = false)
  ∧ processEntry "\r\n" ⟨"a.md", FileKind.regular, Content.text "x\r\ny", false, "", none⟩
      = (⟨"a.md", FileKind.regular,
          Content.text ("\r\n" ++ "\r\n" ++ pyUnivNl "x\r\ny"), false, "", none⟩,
         Outcome.processed) :=
  ⟨⟨rfl, by decide, rfl, rfl⟩,
   C2_format_contract "\r\n"
     ⟨"a.md", FileKind.regular, Content.text "x\r\ny", false, "", none⟩
     "x\r\ny" rfl (by decide) rfl rfl⟩

/-- Counterexample to C8 as stated: for `b.txt` containing `"x"` under
`crlf` mode, the first run yields `"\r\n\r\nx"`, but the second run reads
that back through universal newlines as `"\n\nx"` and so writes
`"\r\n\r\n\n\nx"` — not two additional `\r\n` terminators followed by the
first run's content. -/
theorem C8_not_idempotent_cex :
    (processEntry "\r\n"
        (processEntry "\r\n"
          ⟨"b.txt", FileKind.regular, Content.text "x", false, "", none⟩).1).1.content
        = Content.text "\r\n\r\n\n\nx"
  ∧ (processEntry "\r\n"
        (processEntry "\r\n"
          ⟨"b.txt", FileKind.regular, Content.text "x", false, "", none⟩).1).1.content
        ≠ Content.text ("\r\n" ++ "\r\n" ++ ("\r\n" ++ "\r\n" ++ "x")) := by
  decide

/-- Claim C8 (amended): processing is still not idempotent — the second
run prepends the two-terminator header again — but it prepends it to the
universal-newlines translation of the first run's output, since the read
maps `\r\n` and `\r` to `\n`.  Under `lf` mode the terminator is
carriage-return-free, so there the original wording holds: the second
run's content is exactly two additional terminators before the first
run's content (four terminators, then the translated original). -/
theorem C8_not_idempotent (nl : String) (e : Entry) (s : String)
    (hk : e.kind = FileKind.regular) (hx : hasAllowedExt e.name = true)
    (hc : e.content = Content.text s) (he : e.osError = false) :
    (processEntry nl e).1.content = Content.text (nl ++ nl ++ pyUnivNl s)
  ∧ (processEntry nl (processEntry nl e).1).1.content
      = Content.text (nl ++ nl ++ pyUnivNl (nl ++ nl ++ pyUnivNl s))
  ∧ (nl = "\n" →
      (processEntry nl (processEntry nl e).1).1.content
        = Content.text ("\n" ++ "\n" ++ ("\n" ++ "\n" ++ pyUnivNl s))) := by
  have hf := processEntry_text nl e s hk hx hc he
  have hf2 := processEntry_text nl
    { e with content := Content.text (newContent nl (pyUnivNl s)) }
    (newContent nl (pyUnivNl s)) hk hx rfl he
  refine ⟨by rw [hf, newContent_eq], ?_, ?_⟩
  · rw [hf, hf2, newContent_eq, newContent_eq]
  · intro hnl
    subst hnl
    rw [hf, hf2, newContent_eq, newContent_eq,
      pyUnivNl_lf_header (pyUnivNl s) (univNlChars_no_cr s.data)]

/-- Witness for C8 (amended) at the concrete file `b.txt` with content
`x` and terminator `"\n"`. -/
theorem C8_not_idempotent_witness :
    ((⟨"b.txt", FileKind.regular, Content.text "x", false, "", none⟩ : Entry).kind
        = FileKind.regular
      ∧ hasAllowedExt "b.txt" = true
      ∧ (⟨"b.txt", FileKind.regular, Content.text "x", false, "", none⟩ : Entry).content
          = Content.text "x"
      ∧ (⟨"b.txt", FileKind.regular, Content.text "x", false, "", none⟩ : Entry).osError
          = false)
  ∧ ((processEntry "\n"
        ⟨"b.txt", FileKind.regular, Content.text "x", false, "", none⟩).1.content
        = Content.text ("\n" ++ "\n" ++ pyUnivNl "x")
    ∧ (processEntry "\n"
        (processEntry "\n"
          ⟨"b.txt", FileKind.regular, Content.text "x", false, "", none⟩).1).1.content
        = Content.text ("\n" ++ "\n" ++ pyUnivNl ("\n" ++ "\n" ++ pyUnivNl "x"))
    ∧ (("\n" : String) = "\n" →
        (processEntry "\n"
          (processEntry "\n"
            ⟨"b.txt", FileKind.regular, Content.text "x", false, "", none⟩).1).1.content
          = Content.text ("\n" ++ "\n" ++ ("\n" ++ "\n" ++ pyUnivNl "x")))) :=
  ⟨⟨rfl, by decide, rfl, rfl⟩,
   C8_not_idempotent "\n"
     ⟨"b.txt", FileKind.regular, Content.text "x", false, "", none⟩
     "x" rfl (by decide) rfl rfl⟩

/-- Claim C10: selection is a pure suffix check, so a regular file whose
entire name is an allow-listed extension (a hidden file named `.txt` or
`.md`) is selected and processed like any other candidate: its content
becomes the header followed by the universal-newlines translation of the
original. -/
theorem C10_bare_extension_name (nl : String) (e : Entry) (s : String)
    (hk : e.kind = FileKind.regular) (hn : e.name = ".txt" ∨ e.name = ".md")
    (hc : e.content = Content.text s) (he : e.osError = false) :
    processEntry nl e
      = ({ e with content := Content.text (newContent nl (pyUnivNl s)) },
         Outcome.processed) := by
  have hx : hasAllowedExt e.name = true := by
    rcases hn with hn | hn <;> rw [hn] <;> decide
  exact processEntry_text nl e s hk hx hc he

/-- Witness for C10 at the concrete hidden file named `.txt`. -/
theorem C10_bare_extension_name_witness :
    ((⟨".txt", FileKind.regular, Content.text "h", false, "", none⟩ : Entry).kind
        = FileKind.regular
      ∧ ((⟨".txt", FileKind.regular, Content.text "h", false, "", none⟩ : Entry).name
            = ".txt"
          ∨ (⟨".txt", FileKind.regular, Content.text "h", false, "", none⟩ : Entry).name
            = ".md")
      ∧ (⟨".txt", FileKind.regular, Content.text "h", false, "", none⟩ : Entry).content
          = Content.text "h"
      ∧ (⟨".txt", FileKind.regular, Content.text "h", false, "", none⟩ : Entry).osError
          = false)
  ∧ processEntry "\n" ⟨".txt", FileKind.regular, Content.text "h", false, "", none⟩
      = (⟨".txt", FileKind.regular, Content.text (newContent "\n" (pyUnivNl "h")),
          false, "", none⟩,
         Outcome.processed) :=
  ⟨⟨rfl, Or.inl rfl, rfl, rfl⟩,
   C10_bare_extension_name "\n"
     ⟨".txt", FileKind.regular, Content.text "h", false, "", none⟩
     "h" rfl (Or.inl rfl) rfl rfl⟩

/-- Claim C3: an undecodable candidate file is skipped: the decode error
strikes during the read, before anything is written, so its entry is left
unchanged in place; the entries before and after it are processed exactly
as they otherwise would be (the run continues), it contributes nothing to
the processed count, and it is logged as a non-text file. -/
theorem C3_nontext_skipped (os mode : String) (pre post : List Entry)
    (e : Entry) (b : List Nat)
    (hk : e.kind = FileKind.regular) (hx : hasAllowedExt e.name = true)
    (hc : e.content = Content.binary b) (he : e.osError = false) :
    (insert_lines_to_files os (pre ++ e :: post) mode).1
        = (insert_lines_to_files os pre mode).1
            ++ e :: (insert_lines_to_files os post mode).1
  ∧ (insert_lines_to_files os (pre ++ e :: post) mode).2.1
        = (insert_lines_to_files os pre mode).2.1
            + (insert_lines_to_files os post mode).2.1
  ∧ (e.name, Outcome.skippedNonText)
        ∈ (insert_lines_to_files os (pre ++ e :: post) mode).2.2 := by
  have hpe := processEntry_binary (resolveNl os mode) e b hk hx hc he
  refine ⟨?_, ?_, ?_⟩
  · simp [insert_lines_to_files, runEntries_fst, hpe]
  · simp [insert_lines_to_files, runEntries_count, List.countP_append,
      List.countP_cons, hpe]
  · simp [insert_lines_to_files, runEntries_log, hpe]

/-- Witness for C3: a PNG-like undecodable `img.txt` between two text
files is skipped while both neighbours are processed. -/
theorem C3_nontext_skipped_witness :
    ((⟨"img.txt", FileKind.regular, Content.binary [137, 80], false, "", none⟩
        : Entry).kind = FileKind.regular
      ∧ hasAllowedExt "img.txt" = true
      ∧ (⟨"img.txt", FileKind.regular, Content.binary [137, 80], false, "", none⟩
          : Entry).content = Content.binary [137, 80]
      ∧ (⟨"img.txt", FileKind.regular, Content.binary [137, 80], false, "", none⟩
          : Entry).osError = false)
  ∧ ((insert_lines_to_files "\n"
        ([⟨"a.txt", FileKind.regular, Content.text "a", false, "", none⟩]
          ++ ⟨"img.txt", FileKind.regular, Content.binary [137, 80], false, "", none⟩
              :: [⟨"b.txt", FileKind.regular, Content.text "b", false, "", none⟩]) "lf").1
        = (insert_lines_to_files "\n"
            [⟨"a.txt", FileKind.regular, Content.text "a", false, "", none⟩] "lf").1
          ++ ⟨"img.txt", FileKind.regular, Content.binary [137, 80], false, "", none⟩
              :: (insert_lines_to_files "\n"
                  [⟨"b.txt", FileKind.regular, Content.text "b", false, "", none⟩] "lf").1
    ∧ (insert_lines_to_files "\n"
        ([⟨"a.txt", FileKind.regular, Content.text "a", false, "", none⟩]
          ++ ⟨"img.txt", FileKind.regular, Content.binary [137, 80], false, "", none⟩
              :: [⟨"b.txt", FileKind.regular, Content.text "b", false, "", none⟩]) "lf").2.1
        = (insert_lines_to_files "\n"
            [⟨"a.txt", FileKind.regular, Content.text "a", false, "", none⟩] "lf").2.1
          + (insert_lines_to_files "\n"
              [⟨"b.txt", FileKind.regular, Content.text "b", false, "", none⟩] "lf").2.1
    ∧ ("img.txt", Outcome.skippedNonText)
        ∈ (insert_lines_to_files "\n"
            ([⟨"a.txt", FileKind.regular, Content.text "a", false, "", none⟩]
              ++ ⟨"img.txt", FileKind.regular, Content.binary [137, 80], false, "", none⟩
                  :: [⟨"b.txt", FileKind.regular, Content.text "b", false, "", none⟩])
            "lf").2.2) :=
  ⟨⟨rfl, by decide, rfl, rfl⟩,
   C3_nontext_skipped "\n" "lf"
     [⟨"a.txt", FileKind.regular, Content.text "a", false, "", none⟩]
     [⟨"b.txt", FileKind.regular, Content.text "b", false, "", none⟩]
     ⟨"img.txt", FileKind.regular, Content.binary [137, 80], false, "", none⟩
     [137, 80] rfl (by decide) rfl rfl⟩

/-- Claim C4: a candidate file whose read or write raises a non-decoding
error is caught: it is logged with its filename and error message, it is
not counted, and the surrounding entries are processed exactly as they
otherwise would be — no per-file exception aborts the run.  The erroring
file itself is left as the failure left it: untouched after a read-phase
error, truncated to the partially written new content after a write-phase
error. -/
theorem C4_errors_caught (os mode : String) (pre post : List Entry) (e : Entry)
    (hk : e.kind = FileKind.regular) (hx : hasAllowedExt e.name = true)
    (he : e.osError = true)
    (hp : e.written = none
      ∨ ∃ (s : String) (k : Nat), e.content = Content.text s ∧ e.written = some k) :
    (insert_lines_to_files os (pre ++ e :: post) mode).1
        = (insert_lines_to_files os pre mode).1
            ++ (processEntry (resolveNl os mode) e).1
            :: (insert_lines_to_files os post mode).1
  ∧ (insert_lines_to_files os (pre ++ e :: post) mode).2.1
        = (insert_lines_to_files os pre mode).2.1
            + (insert_lines_to_files os post mode).2.1
  ∧ (e.name, Outcome.errored e.errMsg)
        ∈ (insert_lines_to_files os (pre ++ e :: post) mode).2.2 := by
  have hoc : (processEntry (resolveNl os mode) e).2 = Outcome.errored e.errMsg := by
    rcases hp with hw | ⟨s, k, hc, hw⟩
    · rw [processEntry_readFail (resolveNl os mode) e hk hx he hw]
    · rw [processEntry_writeFail (resolveNl os mode) e s k hk hx hc he hw]
  refine ⟨?_, ?_, ?_⟩
  · simp [insert_lines_to_files, runEntries_fst]
  · simp [insert_lines_to_files, runEntries_count, List.countP_append,
      List.countP_cons, hoc]
  · simp [insert_lines_to_files, runEntries_log, hoc]

/-- Witness for C4: `locked.md` fails mid-write with one character
written (disk full after the truncating open) between two text files; it
is logged with its message while both neighbours are processed. -/
theorem C4_errors_caught_witness :
    ((⟨"locked.md", FileKind.regular, Content.text "z", true,
        "No space left on device", some 1⟩ : Entry).kind = FileKind.regular
      ∧ hasAllowedExt "locked.md" = true
      ∧ (⟨"locked.md", FileKind.regular, Content.text "z", true,
          "No space left on device", some 1⟩ : Entry).osError = true
      ∧ ((⟨"locked.md", FileKind.regular, Content.text "z", true,
            "No space left on device", some 1⟩ : Entry).written = none
          ∨ ∃ (s : String) (k : Nat),
              (⟨"locked.md", FileKind.regular, Content.text "z", true,
                "No space left on device", some 1⟩ : Entry).content = Content.text s
              ∧ (⟨"locked.md", FileKind.regular, Content.text "z", true,
                  "No space left on device", some 1⟩ : Entry).written = some k))
  ∧ ((insert_lines_to_files "\n"
        ([⟨"a.txt", FileKind.regular, Content.text "a", false, "", none⟩]
          ++ ⟨"locked.md", FileKind.regular, Content.text "z", true,
              "No space left on device", some 1⟩
              :: [⟨"b.md", FileKind.regular, Content.text "b", false, "", none⟩])
        "crlf").1
        = (insert_lines_to_files "\n"
            [⟨"a.txt", FileKind.regular, Content.text "a", false, "", none⟩] "crlf").1
          ++ (processEntry (resolveNl "\n" "crlf")
              ⟨"locked.md", FileKind.regular, Content.text "z", true,
                "No space left on device", some 1⟩).1
              :: (insert_lines_to_files "\n"
                  [⟨"b.md", FileKind.regular, Content.text "b", false, "", none⟩]
                  "crlf").1
    ∧ (insert_lines_to_files "\n"
        ([⟨"a.txt", FileKind.regular, Content.text "a", false, "", none⟩]
          ++ ⟨"locked.md", FileKind.regular, Content.text "z", true,
              "No space left on device", some 1⟩
              :: [⟨"b.md", FileKind.regular, Content.text "b", false, "", none⟩])
        "crlf").2.1
        = (insert_lines_to_files "\n"
            [⟨"a.txt", FileKind.regular, Content.text "a", false, "", none⟩] "crlf").2.1
          + (insert_lines_to_files "\n"
              [⟨"b.md", FileKind.regular, Content.text "b", false, "", none⟩] "crlf").2.1
    ∧ ("locked.md",
        Outcome.errored (⟨"locked.md", FileKind.regular, Content.text "z", true,
          "No space left on device", some 1⟩ : Entry).errMsg)
        ∈ (insert_lines_to_files "\n"
            ([⟨"a.txt", FileKind.regular, Content.text "a", false, "", none⟩]
              ++ ⟨"locked.md", FileKind.regular, Content.text "z", true,
                  "No space left on device", some 1⟩
                  :: [⟨"b.md", FileKind.regular, Content.text "b", false, "", none⟩])
            "crlf").2.2) :=
  ⟨⟨rfl, by decide, rfl, Or.inr ⟨"z", 1, rfl, rfl⟩⟩,
   C4_errors_caught "\n" "crlf"
     [⟨"a.txt", FileKind.regular, Content.text "a", false, "", none⟩]
     [⟨"b.md", FileKind.regular, Content.text "b", false, "", none⟩]
     ⟨"locked.md", FileKind.regular, Content.text "z", true,
       "No space left on device", some 1⟩
     rfl (by decide) rfl (Or.inr ⟨"z", 1, rfl, rfl⟩)⟩

/-- Claim C5: a directory entry is selected for processing (neither
skipped as a non-file nor as non-matching) exactly when it is a regular
file and its lowercased name ends with `.txt` or `.md`; in particular the
uppercase name `NOTES.TXT` passes the extension test. -/
theorem C5_selection_iff (nl : String) (e : Entry) :
    (((processEntry nl e).2 ≠ Outcome.notFile
        ∧ (processEntry nl e).2 ≠ Outcome.notMatched)
      ↔ (e.kind = FileKind.regular
          ∧ (pyEndsWith (pyLower e.name) ".txt" = true
              ∨ pyEndsWith (pyLower e.name) ".md" = true)))
  ∧ hasAllowedExt "NOTES.TXT" = true := by
  refine ⟨⟨?_, ?_⟩, by decide⟩
  · intro h
    have hk : e.kind = FileKind.regular := by
      by_contra hk
      exact h.1 (by simp [processEntry, hk])
    have hx : hasAllowedExt e.name = true := by
      by_contra hx
      have hx2 : hasAllowedExt e.name = false := by simpa using hx
      exact h.2 (by simp [processEntry, hk, hx2])
    exact ⟨hk, (hasAllowedExt_iff e.name).1 hx⟩
  · rintro ⟨hk, hx2⟩
    have hx : hasAllowedExt e.name = true := (hasAllowedExt_iff e.name).2 hx2
    refine ⟨?_, ?_⟩ <;>
      cases he : e.osError <;> cases hw : e.written <;> cases hc : e.content <;>
        simp [processEntry, hk, hx, he, hw, hc]

/-- Claim C7: the terminator is resolved once per run: `lf` maps to
`"\n"`, `crlf` to `"\r\n"`, `system` to the platform separator, and the
whole run is the per-entry step applied with that single resolved
terminator to every entry of the listing. -/
theorem C7_terminator_resolution (os : String) :
    resolveNl os "lf" = "\n"
  ∧ resolveNl os "crlf" = "\r\n"
  ∧ resolveNl os "system" = os
  ∧ (∀ (l : List Entry) (mode : String),
        insert_lines_to_files os l mode = runEntries (resolveNl os mode) l)
  ∧ (∀ (l : List Entry) (mode : String),
        (insert_lines_to_files os l mode).1
          = l.map (fun e => (processEntry (resolveNl os mode) e).1)) := by
  refine ⟨by simp [resolveNl], by simp [resolveNl], by simp [resolveNl],
    fun l mode => rfl, fun l mode => runEntries_fst _ _⟩

/-- Claim C9: the processing function itself rejects no newline-policy
value: any argument other than exactly `lf` or `crlf` falls through to
the platform separator; only the command-line parser restricts the value
to its three choices. -/
theorem C9_no_rejection (os s : String) (h1 : s ≠ "lf") (h2 : s ≠ "crlf") :
    resolveNl os s = os
  ∧ (∀ t : String,
        (parseNewlineArg t).isSome = true
          ↔ (t = "lf" ∨ t = "crlf" ∨ t = "system")) := by
  refine ⟨by simp [resolveNl, h1, h2], fun t => ?_⟩
  have hm : (t ∈ newline_choices) ↔ (t = "lf" ∨ t = "crlf" ∨ t = "system") := by
    simp [newline_choices]
  rw [parseNewlineArg]
  by_cases h : t ∈ newline_choices
  · rw [if_pos h]
    simp [hm.1 h]
  · rw [if_neg h]
    simp [hm] at h
    simp [h]

/-- Witness for C9 at the misspelt mode `LF`. -/
theorem C9_no_rejection_witness :
    (("LF" : String) ≠ "lf" ∧ ("LF" : String) ≠ "crlf")
  ∧ (resolveNl "\r\n" "LF" = "\r\n"
    ∧ (∀ t : String,
          (parseNewlineArg t).isSome = true
            ↔ (t = "lf" ∨ t = "crlf" ∨ t = "system"))) :=
  ⟨⟨by decide, by decide⟩, C9_no_rejection "\r\n" "LF" (by decide) (by decide)⟩

/-- Claim C6: frame effects of a run: a listing in which no entry is a
selected candidate (non-matching extensions, subdirectories) is left
entirely unchanged with a processed count of 0; subdirectory entries are
never modified (and the run never descends into them — it only maps over
the immediate listing); and in a listing of one candidate file and one
non-matching file only the former is rewritten (to the header followed by
its translated content) and counted. -/
theorem C6_frame (os mode : String) (l : List Entry)
    (hall : ∀ e ∈ l, e.kind ≠ FileKind.regular ∨ hasAllowedExt e.name = false)
    (f g : Entry) (s : String)
    (hfk : f.kind = FileKind.regular) (hfx : hasAllowedExt f.name = true)
    (hfc : f.content = Content.text s) (hfe : f.osError = false)
    (hgx : hasAllowedExt g.name = false) :
    ((insert_lines_to_files os l mode).1 = l
      ∧ (insert_lines_to_files os l mode).2.1 = 0)
  ∧ (∀ (nl : String) (d : Entry), d.kind = FileKind.directory →
        processEntry nl d = (d, Outcome.notFile))
  ∧ ((insert_lines_to_files os [f, g] mode).1
        = [{ f with content :=
              Content.text (resolveNl os mode ++ resolveNl os mode ++ pyUnivNl s) }, g]
    ∧ (insert_lines_to_files os [f, g] mode).2.1 = 1) := by
  have hf := processEntry_text (resolveNl os mode) f s hfk hfx hfc hfe
  have hg := processEntry_not_selected (resolveNl os mode) g (Or.inr hgx)
  refine ⟨⟨?_, ?_⟩, ?_, ?_, ?_⟩
  · rw [insert_lines_to_files, runEntries_fst]
    have h1 : ∀ e ∈ l, (processEntry (resolveNl os mode) e).1 = e := fun e he =>
      (processEntry_not_selected (resolveNl os mode) e (hall e he)).1
    induction l with
    | nil => rfl
    | cons a rest ih =>
        simp only [List.map_cons, h1 a (List.mem_cons_self a rest)]
        rw [List.cons.injEq]
        exact ⟨rfl, ih (fun e he => hall e (List.mem_cons_of_mem a he))
          (fun e he => h1 e (List.mem_cons_of_mem a he))⟩
  · rw [insert_lines_to_files, runEntries_count]
    rw [List.countP_eq_zero]
    intro e he
    simpa using (processEntry_not_selected (resolveNl os mode) e (hall e he)).2
  · intro nl d hd
    simp [processEntry, hd]
  · rw [insert_lines_to_files, runEntries_fst]
    simp only [List.map_cons, List.map_nil, hf, hg.1]
    rw [newContent_eq]
  · rw [insert_lines_to_files, runEntries_count]
    simp [List.countP_cons, hf, hg.2]

/-- Witness for C6: a listing of a subdirectory and a `.csv` file is
untouched with count 0, and the pair `NOTES.TXT` / `data.csv` processes
only the former. -/
theorem C6_frame_witness :
    (∀ e ∈ ([⟨"sub", FileKind.directory, Content.text "", false, "", none⟩,
             ⟨"data.csv", FileKind.regular, Content.text "x", false, "", none⟩]
            : List Entry),
        e.kind ≠ FileKind.regular ∨ hasAllowedExt e.name = false)
  ∧ ((⟨"NOTES.TXT", FileKind.regular, Content.text "hello", false, "", none⟩
        : Entry).kind = FileKind.regular
      ∧ hasAllowedExt "NOTES.TXT" = true
      ∧ hasAllowedExt "data.csv" = false)
  ∧ (((insert_lines_to_files "\n"
        [⟨"sub", FileKind.directory, Content.text "", false, "", none⟩,
         ⟨"data.csv", FileKind.regular, Content.text "x", false, "", none⟩] "lf").1
        = [⟨"sub", FileKind.directory, Content.text "", false, "", none⟩,
           ⟨"data.csv", FileKind.regular, Content.text "x", false, "", none⟩]
      ∧ (insert_lines_to_files "\n"
          [⟨"sub", FileKind.directory, Content.text "", false, "", none⟩,
           ⟨"data.csv", FileKind.regular, Content.text "x", false, "", none⟩] "lf").2.1
          = 0)
    ∧ (∀ (nl : String) (d : Entry), d.kind = FileKind.directory →
          processEntry nl d = (d, Outcome.notFile))
    ∧ ((insert_lines_to_files "\n"
          [⟨"NOTES.TXT", FileKind.regular, Content.text "hello", false, "", none⟩,
           ⟨"data.csv", FileKind.regular, Content.text "x", false, "", none⟩] "lf").1
          = [⟨"NOTES.TXT", FileKind.regular,
              Content.text (resolveNl "\n" "lf" ++ resolveNl "\n" "lf"
                ++ pyUnivNl "hello"),
              false, "", none⟩,
             ⟨"data.csv", FileKind.regular, Content.text "x", false, "", none⟩]
      ∧ (insert_lines_to_files "\n"
          [⟨"NOTES.TXT", FileKind.regular, Content.text "hello", false, "", none⟩,
           ⟨"data.csv", FileKind.regular, Content.text "x", false, "", none⟩] "lf").2.1
          = 1)) :=
  ⟨by decide, ⟨rfl, by decide, by decide⟩,
   C6_frame "\n" "lf"
     [⟨"sub", FileKind.directory, Content.text "", false, "", none⟩,
      ⟨"data.csv", FileKind.regular, Content.text "x", false, "", none⟩]
     (by decide)
     ⟨"NOTES.TXT", FileKind.regular, Content.text "hello", false, "", none⟩
     ⟨"data.csv", FileKind.regular, Content.text "x", false, "", none⟩
     "hello" rfl (by decide) rfl rfl (by decide)⟩
